import Mathlib

/-!
Verification of `extractor_basic.py` (Credible Sorcerer article extractor).

The Python script fetches a page, parses it with BeautifulSoup, and runs a
sequence of heuristic extractors.  We shallowly embed the parsed document as a
tree of nodes, the extractors as Lean functions, and the effectful pieces
(`requests.get`, `json.loads`, `BeautifulSoup`) as explicit parameters or
outcome values.
-/

/-- A parsed HTML node: a text node, or an element with a tag name, an
attribute list, and children.  This models the BeautifulSoup tree that
`BeautifulSoup(html, "html.parser")` produces; the document root is itself a
`Node` (BeautifulSoup's synthetic `[document]` element) and all searches scan
its strict descendants, as `soup.find` / `soup.find_all` do. -/
inductive Node where
  | text (s : String)
  | elem (tag : String) (attrs : List (String × String)) (children : List Node)
deriving Repr

namespace Node

mutual

/-- All nodes of a subtree in document (preorder) order, the root included. -/
def descendN : Node → List Node
  | .text s => [.text s]
  | .elem t a cs => .elem t a cs :: descendL cs

/-- All nodes of a forest in document (preorder) order. -/
def descendL : List Node → List Node
  | [] => []
  | c :: cs => descendN c ++ descendL cs

end

mutual

def decEqN : (m n : Node) → Decidable (m = n)
  | .text s, .text t =>
      match decEq s t with
      | .isTrue h => .isTrue (h ▸ rfl)
      | .isFalse h => .isFalse (fun e => h (Node.text.injEq .. ▸ e ▸ rfl))
  | .text _, .elem _ _ _ => .isFalse (fun e => Node.noConfusion e)
  | .elem _ _ _, .text _ => .isFalse (fun e => Node.noConfusion e)
  | .elem t1 a1 c1, .elem t2 a2 c2 =>
      match decEq t1 t2, decEq a1 a2, decEqL c1 c2 with
      | .isTrue h1, .isTrue h2, .isTrue h3 => .isTrue (by rw [h1, h2, h3])
      | .isFalse h1, _, _ => .isFalse (fun e => h1 (by cases e; rfl))
      | _, .isFalse h2, _ => .isFalse (fun e => h2 (by cases e; rfl))
      | _, _, .isFalse h3 => .isFalse (fun e => h3 (by cases e; rfl))

def decEqL : (ms ns : List Node) → Decidable (ms = ns)
  | [], [] => .isTrue rfl
  | [], _ :: _ => .isFalse (fun e => List.noConfusion e)
  | _ :: _, [] => .isFalse (fun e => List.noConfusion e)
  | m :: ms, n :: ns =>
      match decEqN m n, decEqL ms ns with
      | .isTrue h1, .isTrue h2 => .isTrue (by rw [h1, h2])
      | .isFalse h1, _ => .isFalse (fun e => h1 (by cases e; rfl))
      | _, .isFalse h2 => .isFalse (fun e => h2 (by cases e; rfl))

end

instance : DecidableEq Node := decEqN

end Node

/-! ## Python string primitives

Models of the Python `str` operations the script uses.  Whitespace is the
ASCII whitespace set that `str.split()` / `str.strip()` recognise (the
Unicode-only whitespace code points are not modelled; none of the heuristics
or examples depend on them). -/

/-- Characters Python `str.split()` and `str.strip()` treat as whitespace
(ASCII part): space, tab, newline, carriage return, vertical tab, form feed. -/
def pyIsSpace (c : Char) : Bool :=
  c = ' ' || c = '\t' || c = '\n' || c = '\r' || c.toNat = 11 || c.toNat = 12

/-- Helper for `pySplit`: scans the character list, accumulating the current
word (in reverse) and emitting it at each whitespace run or at the end. -/
def pySplitAux : List Char → List Char → List String
  | [], acc => if acc.isEmpty then [] else [String.mk acc.reverse]
  | c :: rest, acc =>
      if pyIsSpace c then
        if acc.isEmpty then pySplitAux rest []
        else String.mk acc.reverse :: pySplitAux rest []
      else pySplitAux rest (c :: acc)

/-- Python `s.split()` with no argument: split on runs of whitespace,
discarding empty pieces. -/
def pySplit (s : String) : List String :=
  pySplitAux s.toList []

/-- Python `s.strip()`: drop leading and trailing whitespace. -/
def pyStrip (s : String) : String :=
  String.mk (((s.toList.dropWhile pyIsSpace).reverse.dropWhile pyIsSpace).reverse)

/-- Python `needle in hay` on strings: contiguous substring test. -/
def pyInAux (nd : List Char) : List Char → Bool
  | [] => nd.isPrefixOf []
  | c :: rest => nd.isPrefixOf (c :: rest) || pyInAux nd rest

/-- Python `needle in hay` on strings. -/
def pyIn (needle hay : String) : Bool :=
  pyInAux needle.toList hay.toList

/-- Python `s.startswith(pre)`. -/
def pyStartsWith (s pre : String) : Bool :=
  pre.toList.isPrefixOf s.toList

/-- Python `s.lower()` (ASCII part of the case mapping). -/
def pyToLower (s : String) : String :=
  String.mk (s.toList.map Char.toLower)

namespace Node

/-! ## BeautifulSoup document queries -/

/-- The attribute list of a node (empty for text nodes). -/
def attrsOf : Node → List (String × String)
  | .text _ => []
  | .elem _ a _ => a

/-- The children of a node (empty for text nodes). -/
def childrenOf : Node → List Node
  | .text _ => []
  | .elem _ _ cs => cs

/-- Python `tag.get(key)` / `tag["key"]`: the first attribute with the given
name, if any. -/
def getAttr (n : Node) (k : String) : Option String :=
  (n.attrsOf.find? (fun p => p.1 = k)).map (fun p => p.2)

/-- Whether the node is an element with the given tag name. -/
def isTag (n : Node) (t : String) : Bool :=
  match n with
  | .text _ => false
  | .elem tg _ _ => tg = t

mutual

/-- BeautifulSoup `find` within one subtree, the root included: first node of
the subtree, in document order, satisfying the predicate. -/
def findN (p : Node → Bool) : Node → Option Node
  | .text s => if p (.text s) then some (.text s) else none
  | .elem t a cs =>
      if p (.elem t a cs) then some (.elem t a cs) else findL p cs

/-- BeautifulSoup `find` over a forest, in document order. -/
def findL (p : Node → Bool) : List Node → Option Node
  | [] => none
  | c :: cs =>
      match findN p c with
      | some r => some r
      | none => findL p cs

end

/-- `soup.find(...)`: searches the strict descendants of the document root
(the root itself, BeautifulSoup's `[document]` object, is never a match
candidate). -/
def soupFind (p : Node → Bool) (doc : Node) : Option Node :=
  findL p doc.childrenOf

mutual

/-- BeautifulSoup `find_all` within one subtree, the root included, in
document order. -/
def findAllN (p : Node → Bool) : Node → List Node
  | .text s => if p (.text s) then [.text s] else []
  | .elem t a cs =>
      (if p (.elem t a cs) then [Node.elem t a cs] else []) ++ findAllL p cs

/-- BeautifulSoup `find_all` over a forest, in document order. -/
def findAllL (p : Node → Bool) : List Node → List Node
  | [] => []
  | c :: cs => findAllN p c ++ findAllL p cs

end

/-- `soup.find_all(...)`: all matching strict descendants of the document
root, in document order. -/
def soupFindAll (p : Node → Bool) (doc : Node) : List Node :=
  findAllL p doc.childrenOf

/-- BeautifulSoup `tag.string`: the single string beneath a tag — the text of
a text node, the recursive `.string` of a single-child element, and `None`
otherwise. -/
def nodeString : Node → Option String
  | .text s => some s
  | .elem _ _ [c] => nodeString c
  | .elem _ _ _ => none

mutual

/-- The strings of all text nodes of a subtree, in document order (the input
to BeautifulSoup `get_text`). -/
def textsN : Node → List String
  | .text s => [s]
  | .elem _ _ cs => textsL cs

/-- The strings of all text nodes of a forest, in document order. -/
def textsL : List Node → List String
  | [] => []
  | c :: cs => textsN c ++ textsL cs

end

/-- BeautifulSoup `tag.get_text(separator=sep)`: all descendant strings joined
with the separator. -/
def getText (sep : String) (n : Node) : String :=
  String.intercalate sep (textsN n)

/-- BeautifulSoup `tag.get_text(strip=True)` (default empty separator): each
descendant string stripped, empty results dropped, the rest concatenated. -/
def getTextStrip (n : Node) : String :=
  String.join (((textsN n).map pyStrip).filter (fun s => s ≠ ""))

/-- Whether a node is a `<script>` or `<style>` element. -/
def isScriptStyle : Node → Bool
  | .text _ => false
  | .elem t _ _ => t = "script" || t = "style"

mutual

/-- Effect of `for hidden in body(["script", "style"]): hidden.decompose()` on
one subtree: every `<script>`/`<style>` descendant is removed together with
its contents; the root itself is kept (`find_all` only yields descendants in
the loop, and the selected body is never itself removed). -/
def removeSS : Node → Node
  | .text s => .text s
  | .elem t a cs => .elem t a (removeSSL cs)

/-- Script/style removal over a forest. -/
def removeSSL : List Node → List Node
  | [] => []
  | c :: cs =>
      if isScriptStyle c then removeSSL cs
      else removeSS c :: removeSSL cs

end

mutual

/-- In-place replacement of the first node (in document order, root included)
satisfying `p` by its image under `f`; the Bool reports whether a match was
found.  This models a destructive update of a shared BeautifulSoup subtree. -/
def replB (p : Node → Bool) (f : Node → Node) : Node → Node × Bool
  | .text s =>
      if p (.text s) then (f (.text s), true) else (.text s, false)
  | .elem t a cs =>
      if p (.elem t a cs) then (f (.elem t a cs), true)
      else
        let r := replL p f cs
        (.elem t a r.1, r.2)

/-- In-place replacement over a forest: only the first match is replaced,
everything else is shared unchanged. -/
def replL (p : Node → Bool) (f : Node → Node) : List Node → List Node × Bool
  | [] => ([], false)
  | c :: cs =>
      let r := replB p f c
      if r.2 then (r.1 :: cs, true)
      else
        let rs := replL p f cs
        (c :: rs.1, rs.2)

end

/-- In-place replacement of the first `soup.find(p)` result inside the whole
document (the root is not a candidate, matching `soup.find`). -/
def replaceFirst (p : Node → Bool) (f : Node → Node) (doc : Node) : Node × Bool :=
  match doc with
  | .text s => (.text s, false)
  | .elem t a cs =>
      let r := replL p f cs
      (.elem t a r.1, r.2)

end Node

open Node

/-! ## The field extractors (from `extractor_basic.py`) -/

/-- Predicate for `soup.find("article")`. -/
def isArticleTag (n : Node) : Bool := isTag n "article"

/-- Predicate for `soup.find("div", id="mw-content-text")`. -/
def isMwContentDiv (n : Node) : Bool :=
  isTag n "div" && getAttr n "id" = some "mw-content-text"

/-- Predicate for `soup.find("div", ("role": "main"))`. -/
def isMainRoleDiv (n : Node) : Bool :=
  isTag n "div" && getAttr n "role" = some "main"

/-- The extraction root `extract_text` selects: first `<article>`, else first
`<div id="mw-content-text">`, else first `<div role="main">`, else the soup
object itself. -/
def selectBody (doc : Node) : Node :=
  match soupFind isArticleTag doc with
  | some b => b
  | none =>
      match soupFind isMwContentDiv doc with
      | some b => b
      | none =>
          match soupFind isMainRoleDiv doc with
          | some b => b
          | none => doc

/-- Whitespace cleanup in `extract_text`:
`cleaned = " ".join(raw_text.split())`. -/
def cleanWs (raw : String) : String :=
  String.intercalate " " (pySplit raw)

/-- `extract_text(soup)` together with its side effect on the shared parsed
document.  The Python function selects a body root, destructively removes
`<script>`/`<style>` elements inside it (mutating the shared tree), reads
`body.get_text(separator=" ")` and collapses whitespace.  The first component
is the returned string, the second the document after the mutation. -/
def extractTextM (doc : Node) : String × Node :=
  match soupFind isArticleTag doc with
  | some b => (cleanWs (getText " " (removeSS b)),
               (replaceFirst isArticleTag removeSS doc).1)
  | none =>
      match soupFind isMwContentDiv doc with
      | some b => (cleanWs (getText " " (removeSS b)),
                   (replaceFirst isMwContentDiv removeSS doc).1)
      | none =>
          match soupFind isMainRoleDiv doc with
          | some b => (cleanWs (getText " " (removeSS b)),
                       (replaceFirst isMainRoleDiv removeSS doc).1)
          | none => (cleanWs (getText " " (removeSS doc)), removeSS doc)

/-- The string `extract_text(soup)` returns. -/
def extract_text (doc : Node) : String := (extractTextM doc).1

/-- `extract_title(soup)`: the stripped `.string` of the first `<title>` tag
when the tag exists and its `.string` is non-empty, else the sentinel. -/
def extract_title (doc : Node) : String :=
  match soupFind (fun n => isTag n "title") doc with
  | some titleTag =>
      match nodeString titleTag with
      | some s => if s ≠ "" then pyStrip s else "(no title found)"
      | none => "(no title found)"
  | none => "(no title found)"

/-- `extract_links(soup)`: hrefs of all `<a>` tags carrying an `href`
attribute, kept when the value starts with `"http"`, in document order. -/
def extract_links (doc : Node) : List String :=
  (soupFindAll (fun n => isTag n "a" && (getAttr n "href").isSome) doc).filterMap
    (fun tag =>
      match getAttr tag "href" with
      | some h => if pyStartsWith h "http" then some h else none
      | none => none)

/-! ## Python values and exceptions

`extract_json_ld` feeds `script.string` to `json.loads` and then manipulates
the decoded Python value.  We model Python values explicitly; `json.loads`
itself (a standard-library collaborator, not code of this repository) is a
parameter of the functions that use it, of type
`Option String → Except PyExc PyVal` (`json.loads(None)` raises `TypeError`,
undecodable text raises `json.JSONDecodeError`). -/

/-- The exception classes the script can raise or catch. -/
inductive PyExc where
  | jsonDecodeError
  | typeError
  | indexError
  | attributeError
deriving DecidableEq, Repr

/-- A Python value as produced by `json.loads` and consumed by the
extractors. -/
inductive PyVal where
  | str (s : String)
  | int (n : Int)
  | bool (b : Bool)
  | pynone
  | list (xs : List PyVal)
  | dict (fields : List (String × PyVal))
deriving Repr

/-- Python truthiness of a value (`if x:`). -/
def pyTruthy : PyVal → Bool
  | .str s => s ≠ ""
  | .int n => n ≠ 0
  | .bool b => b
  | .pynone => false
  | .list xs => !xs.isEmpty
  | .dict fs => !fs.isEmpty

/-- Python `d.get(key)` on a dict given as a field list. -/
def dictGet (fs : List (String × PyVal)) (k : String) : Option PyVal :=
  (fs.find? (fun p => p.1 = k)).map (fun p => p.2)

/-- Python `str(x)` for the scalar values the extractors can reach (lists and
dicts are destructured before any `str` conversion, so their rendering is
abbreviated rather than a full repr). -/
def pyStr : PyVal → String
  | .str s => s
  | .int n => toString n
  | .bool b => if b then "True" else "False"
  | .pynone => "None"
  | .list _ => "[...]"
  | .dict _ => "\x7b...\x7d"

/-- All-strings check used by `", ".join(...)`: `join` only accepts string
elements. -/
def allStrs : List PyVal → Option (List String)
  | [] => some []
  | .str s :: rest => (allStrs rest).map (fun ss => s :: ss)
  | _ :: _ => none

/-- Python `sep.join(vs)`: joins string elements, raises `TypeError` when an
element is not a string. -/
def pyJoin (sep : String) (vs : List PyVal) : Except PyExc String :=
  match allStrs vs with
  | some ss => .ok (String.intercalate sep ss)
  | none => .error .typeError

/-! ## JSON-LD structured data (`extract_json_ld`) -/

/-- The article-like `@type` names recognised by `extract_json_ld`. -/
def articleTypes : List String :=
  ["NewsArticle", "Article", "BlogPosting", "ReportageNewsArticle"]

/-- The `.string` contents of all
`<script type="application/ld+json">` tags, in document order. -/
def ldScriptStrings (doc : Node) : List (Option String) :=
  (soupFindAll
    (fun n => isTag n "script" && getAttr n "type" = some "application/ld+json")
    doc).map nodeString

section LoadsParam

variable (loads : Option String → Except PyExc PyVal)

/-- The body of the `try` block of `extract_json_ld` for one candidate
script: decode, take `data[0]` when the decode is a list (an `IndexError` on
an empty list), then test `data.get("@type")` against the article types (an
`AttributeError` when the value is not a dict).  `.ok (some v)` is the
`return data` path, `.ok none` means the loop moves on. -/
def ldTryBody (s : Option String) : Except PyExc (Option PyVal) := do
  let data ← loads s
  let data ←
    match data with
    | .list [] => Except.error PyExc.indexError
    | .list (x :: _) => Except.ok x
    | d => Except.ok d
  match data with
  | .dict fs =>
      match dictGet fs "@type" with
      | some (.str t) =>
          if t ∈ articleTypes then .ok (some (.dict fs)) else .ok none
      | _ => .ok none
  | _ => .error .attributeError

/-- One candidate of the loop, with the
`except (json.JSONDecodeError, TypeError): continue` handler applied: exactly
those two exception classes are swallowed, every other exception
propagates. -/
def ldCandidate (s : Option String) : Except PyExc (Option PyVal) :=
  match ldTryBody loads s with
  | .error .jsonDecodeError => .ok none
  | .error .typeError => .ok none
  | r => r

/-- The loop of `extract_json_ld` over the candidate script strings. -/
def extractJsonLdGo : List (Option String) → Except PyExc (Option PyVal)
  | [] => .ok none
  | s :: rest =>
      match ldCandidate loads s with
      | .ok (some v) => .ok (some v)
      | .ok none => extractJsonLdGo rest
      | .error e => .error e

/-- `extract_json_ld(soup)`: scan the `application/ld+json` scripts in
document order, return the first article-typed decode, `None` when none
matches; decode errors and `TypeError` skip a candidate, any other exception
escapes. -/
def extract_json_ld (doc : Node) : Except PyExc (Option PyVal) :=
  extractJsonLdGo loads (ldScriptStrings doc)

end LoadsParam

/-! ## Author and publication date extractors -/

/-- `tag = soup.find("meta", attrs=(k: v)); if tag and tag.get("content"):`
for one candidate attribute pair: the raw `content` value when the tag exists
and its `content` is non-empty. -/
def metaContent (doc : Node) (k v : String) : Option String :=
  match soupFind (fun n => isTag n "meta" && getAttr n k = some v) doc with
  | some tag =>
      match getAttr tag "content" with
      | some c => if c ≠ "" then some c else none
      | none => none
  | none => none

/-- The meta-candidate loop shared by the author and date extractors: first
candidate whose tag exists with non-empty `content` wins. -/
def metaFirst (doc : Node) : List (String × String) → Option String
  | [] => none
  | (k, v) :: rest =>
      match metaContent doc k v with
      | some c => some c
      | none => metaFirst doc rest

/-- The meta-tag candidates of `extract_author`, in source order. -/
def authorMetaCandidates : List (String × String) :=
  [("property", "article:author"), ("name", "author"),
   ("name", "byl"), ("name", "DC.creator")]

/-- The class-attribute test
`lambda c: c and class_name in c.lower()` of the author fallback. -/
def classMatch (className : String) (n : Node) : Bool :=
  match getAttr n "class" with
  | some c => c ≠ "" && pyIn className (pyToLower c)
  | none => false

/-- The `for class_name in ["author", "byline"]` fallback loop of
`extract_author`: first element with a matching class attribute and non-empty
stripped text wins. -/
def classTierGo (doc : Node) : List String → Option String
  | [] => none
  | cn :: rest =>
      match soupFind (classMatch cn) doc with
      | some el =>
          let t := getTextStrip el
          if t ≠ "" then some t else classTierGo doc rest
      | none => classTierGo doc rest

/-- The class-based author fallback tier. -/
def classTier (doc : Node) : Option String :=
  classTierGo doc ["author", "byline"]

/-- The per-entry mapping of the list branch of `extract_author`:
`a.get("name", "")` for a dict entry, the entry itself otherwise. -/
def authorEntryName (a : PyVal) : PyVal :=
  match a with
  | .dict g => (dictGet g "name").getD (.str "")
  | v => v

/-- Tier 1 of `extract_author`, operating on the `extract_json_ld` result:
the `if ld and ld.get("author"):` block.  `.ok none` means the guard was
falsy and the function falls through to the meta-tag scan. -/
def authorFromLd (ldOpt : Option PyVal) : Except PyExc (Option String) :=
  match ldOpt with
  | none => .ok none
  | some ld =>
      if pyTruthy ld then
        match ld with
        | .dict fs =>
            let author := (dictGet fs "author").getD .pynone
            if pyTruthy author then
              match author with
              | .list xs =>
                  let names := xs.map authorEntryName
                  let filtered := names.filter pyTruthy
                  (pyJoin ", " filtered).map some
              | .dict g =>
                  .ok (some (((dictGet g "name").map pyStr).getD
                    "(no author found)"))
              | v => .ok (some (pyStr v))
            else .ok none
        | _ => .error .attributeError
      else .ok none

section LoadsParam2

variable (loads : Option String → Except PyExc PyVal)

/-- `extract_author(soup)`: JSON-LD author first (string used via `str`, dict
via its `name` field with the sentinel as default, list mapped to names,
filtered by truthiness and comma-joined), then the meta-tag scan, then the
class-based fallback, then the sentinel.  Exceptions from `extract_json_ld`
or from joining non-string names propagate. -/
def extract_author (doc : Node) : Except PyExc String := do
  let ldOpt ← extract_json_ld loads doc
  let t ← authorFromLd ldOpt
  match t with
  | some s => return s
  | none =>
      match metaFirst doc authorMetaCandidates with
      | some c => return pyStrip c
      | none =>
          match classTier doc with
          | some s => return s
          | none => return "(no author found)"

/-- The meta-tag candidates of `extract_publication_date`, in source order. -/
def dateMetaCandidates : List (String × String) :=
  [("property", "article:published_time"), ("name", "publication_date"),
   ("name", "date"), ("name", "pubdate"), ("name", "DC.date.issued")]

/-- `extract_publication_date(soup)`: JSON-LD `datePublished` first
(stripped; `.strip()` on a non-string raises), then the meta-tag scan, then
the first `<time>` with a `datetime` attribute, then the sentinel. -/
def extract_publication_date (doc : Node) : Except PyExc String := do
  let ldOpt ← extract_json_ld loads doc
  let tier1 : Except PyExc (Option String) :=
    match ldOpt with
    | none => .ok none
    | some ld =>
        if pyTruthy ld then
          match ld with
          | .dict fs =>
              let dp := (dictGet fs "datePublished").getD .pynone
              if pyTruthy dp then
                match dp with
                | .str s => .ok (some (pyStrip s))
                | _ => .error .attributeError
              else .ok none
          | _ => .error .attributeError
        else .ok none
  let t ← tier1
  match t with
  | some s => return s
  | none =>
      match metaFirst doc dateMetaCandidates with
      | some c => return pyStrip c
      | none =>
          match soupFind
              (fun n => isTag n "time" && (getAttr n "datetime").isSome) doc with
          | some timeTag => return pyStrip ((getAttr timeTag "datetime").getD "")
          | none => return "(no publication date found)"

end LoadsParam2

/-! ## Spec-side comparison definitions

For the refinement-style link claim we also state the spec's own wording as a
definition and compare it with the source's `extract_links`. -/

/-- Modelled from the spec wording of the link extractor: the href values of
all elements carrying an `href` attribute whose value starts with `"http"`,
in document order, duplicates preserved. -/
def allHttpHrefs (doc : Node) : List String :=
  (Node.descendL doc.childrenOf).filterMap (fun n =>
    match getAttr n "href" with
    | some h => if pyStartsWith h "http" then some h else none
    | none => none)

/-- The same spec wording restricted to `<a>` elements (the amended claim). -/
def anchorHttpHrefs (doc : Node) : List String :=
  (Node.descendL doc.childrenOf).filterMap (fun n =>
    if isTag n "a" then
      match getAttr n "href" with
      | some h => if pyStartsWith h "http" then some h else none
      | none => none
    else none)

/-! ## Fetching, record assembly, and the program entry point -/

/-- An HTTP response as `requests.get` may deliver it. -/
structure HttpResponse where
  status : Nat
  body : String
deriving DecidableEq, Repr

/-- Outcome of the one `requests.get` call: a transport-level
`RequestException` with its message, or a response. -/
inductive FetchOutcome where
  | transportError (msg : String)
  | response (r : HttpResponse)
deriving DecidableEq, Repr

/-- Whether `response.raise_for_status()` raises: true for 4xx and 5xx
status codes. -/
def statusIsError (status : Nat) : Bool :=
  400 ≤ status && status < 600

/-- `fetch_html(url)`: the returned text (`None` on failure) together with
the lines the function prints.  Transport errors and `raise_for_status`
errors are both `requests.RequestException`s, caught by the one handler that
prints `"Error fetching URL: ..."` and returns `None`.  The embedded message
for an HTTP error summarises the `requests` exception text. -/
def fetch_html (outcome : FetchOutcome) (url : String) : Option String × List String :=
  match outcome with
  | .transportError msg => (none, ["Error fetching URL: " ++ msg])
  | .response r =>
      if statusIsError r.status then
        (none, ["Error fetching URL: " ++ toString r.status ++
          " Error for url: " ++ url])
      else (some r.body, [])

/-- The dict `scrape_article` builds, with its keys in insertion order.  The
source initialises `links` to `[]` and `text_preview` to `""` and leaves the
lines that would fill them commented out. -/
structure ArticleRecord where
  url : String
  title : String
  author : String
  publication_date : String
  link_count : Nat
  text_length : Nat
  links : List String
  text_preview : String
deriving DecidableEq, Repr

/-- `DEFAULT_URL` of the script. -/
def DEFAULT_URL : String := "https://en.wikipedia.org/wiki/Web_scraping"

section Pipeline

variable (loads : Option String → Except PyExc PyVal)
variable (parse : String → Node)

/-- `scrape_article(url)`: fetch, parse (`BeautifulSoup(html, "html.parser")`
is the `parse` parameter), build the record dict.  The dict literal evaluates
its values in key order on the one shared soup; `extract_text` mutates that
soup, and the later standalone `extract_links(soup)` / `extract_text(soup)`
calls run on the mutated tree with their results discarded.  The second
component collects the lines printed so far (only `fetch_html` prints). -/
def scrape_article (outcome : FetchOutcome) (url : String) :
    Except PyExc (Option ArticleRecord) × List String :=
  match fetch_html outcome url with
  | (none, prints) => (.ok none, prints)
  | (some html, prints) =>
      let soup := parse html
      let res : Except PyExc (Option ArticleRecord) := do
        let title := extract_title soup
        let author ← extract_author loads soup
        let pubdate ← extract_publication_date loads soup
        let linkCount := (extract_links soup).length
        let tm := extractTextM soup
        let textLength := tm.1.length
        let _links := extract_links tm.2
        let _tm2 := extractTextM tm.2
        pure (some
          { url := url
            title := title
            author := author
            publication_date := pubdate
            link_count := linkCount
            text_length := textLength
            links := []
            text_preview := "" })
      (res, prints)

/-- Minimal JSON string escaping for `json.dumps` output (quote, backslash
and the common control characters). -/
def jsonEscape (s : String) : String :=
  s.toList.foldr
    (fun c acc =>
      (match c with
       | '"' => "\\\""
       | '\\' => "\\\\"
       | '\n' => "\\n"
       | '\t' => "\\t"
       | '\r' => "\\r"
       | c => String.mk [c]) ++ acc) ""

/-- Rendering of a string list as `json.dumps(..., indent=2)` renders a value
nested at depth one. -/
def dumpsStrList : List String → String
  | [] => "[]"
  | xs =>
      "[\n" ++
      String.intercalate ",\n"
        (xs.map (fun s => "    \"" ++ jsonEscape s ++ "\"")) ++
      "\n  ]"

/-- `json.dumps(result, indent=2)`: the record rendered with two-space
indentation, keys in insertion order. -/
def dumpsRecord (r : ArticleRecord) : String :=
  "\x7b\n" ++
  "  \"url\": \"" ++ jsonEscape r.url ++ "\",\n" ++
  "  \"title\": \"" ++ jsonEscape r.title ++ "\",\n" ++
  "  \"author\": \"" ++ jsonEscape r.author ++ "\",\n" ++
  "  \"publication_date\": \"" ++ jsonEscape r.publication_date ++ "\",\n" ++
  "  \"link_count\": " ++ toString r.link_count ++ ",\n" ++
  "  \"text_length\": " ++ toString r.text_length ++ ",\n" ++
  "  \"links\": " ++ dumpsStrList r.links ++ ",\n" ++
  "  \"text_preview\": \"" ++ jsonEscape r.text_preview ++ "\"\n" ++
  "\x7d"

/-- The `if __name__ == "__main__"` block: pick the URL from `argv` (index 1)
or the default, scrape, print the JSON dump on a record, else print the
failure line.  The result pairs the standard-output lines with `.error e`
when an uncaught exception aborts the program after the lines already
printed. -/
def main_run (outcome : FetchOutcome) (argv : List String) :
    List String × Except PyExc Unit :=
  let url := (argv.get? 1).getD DEFAULT_URL
  match scrape_article loads parse outcome url with
  | (.error e, prints) => (prints, .error e)
  | (.ok (some record), prints) => (prints ++ [dumpsRecord record], .ok ())
  | (.ok none, prints) =>
      (prints ++ ["Scraping failed. Check the URL and your network connection."],
       .ok ())

end Pipeline

/-! ## Concrete fixtures

Small documents and `json.loads` behaviours used to instantiate the theorems
at concrete inputs. -/

/-- Python `s[:k]`: the first `k` characters of a string. -/
def pyTake (k : Nat) (s : String) : String :=
  String.mk (s.toList.take k)

/-- The first character of a string, used to tell a JSON dump (which starts
with an opening brace) from the failure lines (which do not). -/
def firstChar (s : String) : Option Char := s.toList.head?

/-- A `json.loads` that fails on every input (no fixture document below feeds
it decodable content unless said otherwise). -/
def noLoads : Option String → Except PyExc PyVal :=
  fun _ => .error .jsonDecodeError

/-- A page with one absolute link, one relative link, one ftp link and some
visible text; no title, no metadata. -/
def fixDoc1 : Node := .elem "[document]" [] [
  .elem "html" [] [
    .elem "body" [] [
      .elem "a" [("href", "https://example.com/x")] [.text "x"],
      .elem "a" [("href", "/relative")] [.text "rel"],
      .elem "a" [("href", "ftp://x")] [.text "ftp"],
      .text "Hello"
    ]
  ]
]

/-- The record `scrape_article` produces for `fixDoc1` (cleaned text is
`"x rel ftp Hello"`, 15 characters, one qualifying link). -/
def fixRec1 : ArticleRecord :=
  { url := "u"
    title := "(no title found)"
    author := "(no author found)"
    publication_date := "(no publication date found)"
    link_count := 1
    text_length := 15
    links := []
    text_preview := "" }

/-- A JSON-LD script tag (its body is a placeholder decoded by the fixture
`loads` functions). -/
def fixScript : Node :=
  .elem "script" [("type", "application/ld+json")] [.text "LDA"]

/-- An article body containing a script next to visible text. -/
def fixDoc3 : Node := .elem "[document]" [] [
  .elem "article" [] [fixScript, .text "Hello World"]
]

/-- A page whose only JSON-LD block decodes to the empty list. -/
def fixDoc4 : Node := .elem "[document]" [] [
  .elem "head" [] [
    .elem "script" [("type", "application/ld+json")] [.text "[]"]
  ]
]

/-- A `json.loads` that decodes `"[]"` to the empty list, as the real
`json.loads` does. -/
def loads4 : Option String → Except PyExc PyVal := fun s =>
  match s with
  | some "[]" => .ok (.list [])
  | _ => .error .jsonDecodeError

/-- A page whose only element with an `http` href is a `<link>`, not an
`<a>`. -/
def fixDoc6 : Node := .elem "[document]" [] [
  .elem "head" [] [.elem "link" [("href", "http://a")] []]
]

/-- The three-anchor example document of the spec. -/
def fixDoc6b : Node := .elem "[document]" [] [
  .elem "body" [] [
    .elem "a" [("href", "https://example.com/x")] [.text "x"],
    .elem "a" [("href", "/relative")] [.text "rel"],
    .elem "a" [("href", "ftp://x")] [.text "ftp"]
  ]
]

/-- A page with a JSON-LD script and a `<meta name="author">` carrying a
different name. -/
def fixDoc7 : Node := .elem "[document]" [] [
  .elem "head" [] [
    .elem "script" [("type", "application/ld+json")] [.text "LDA"],
    .elem "meta" [("name", "author"), ("content", "Meta Person")] []
  ]
]

/-- Fields of a JSON-LD article whose author is the object
`("name": "Jane Doe")`. -/
def ldJaneFields : List (String × PyVal) :=
  [("@type", .str "NewsArticle"),
   ("author", .dict [("name", .str "Jane Doe")])]

/-- A `json.loads` decoding the fixture script to the Jane Doe article. -/
def loadsJane : Option String → Except PyExc PyVal := fun s =>
  match s with
  | some "LDA" => .ok (.dict ldJaneFields)
  | _ => .error .jsonDecodeError

/-- Fields of a JSON-LD article whose author is the two-object list
`A`, `B`. -/
def ldABFields : List (String × PyVal) :=
  [("@type", .str "Article"),
   ("author", .list [.dict [("name", .str "A")], .dict [("name", .str "B")]])]

/-- A `json.loads` decoding the fixture script to the two-author article. -/
def loadsAB : Option String → Except PyExc PyVal := fun s =>
  match s with
  | some "LDA" => .ok (.dict ldABFields)
  | _ => .error .jsonDecodeError

/-- The author-list entries for the all-empty case: an empty string and a
dict without a usable name. -/
def ldEmptyAuthors : List PyVal := [.str "", .dict [("notname", .str "X")]]

/-- Fields of a JSON-LD article whose author list maps to empty names
only. -/
def ldEmptyFields : List (String × PyVal) :=
  [("@type", .str "NewsArticle"), ("author", .list ldEmptyAuthors)]

/-- A `json.loads` decoding the fixture script to the all-empty-author
article. -/
def loadsEmpties : Option String → Except PyExc PyVal := fun s =>
  match s with
  | some "LDA" => .ok (.dict ldEmptyFields)
  | _ => .error .jsonDecodeError

/-- A page with the all-empty-author JSON-LD block and a meta author the
fallthrough would have found. -/
def fixDoc8 : Node := .elem "[document]" [] [
  .elem "head" [] [
    .elem "script" [("type", "application/ld+json")] [.text "LDA"],
    .elem "meta" [("name", "author"), ("content", "Someone")] []
  ]
]

/-- The title tag of `fixDoc9`. -/
def fixTitleTag : Node := .elem "title" [] [.text "  The Title "]

/-- A page with a padded title. -/
def fixDoc9 : Node := .elem "[document]" [] [
  .elem "head" [] [fixTitleTag]
]

/-! ## Helper lemmas: tree traversal, removal and replacement -/

namespace Node

/-- A predicate that only looks at a node's tag and attributes (never at its
children) and never matches a text node.  All the body-selection and
script/style predicates of the script are of this shape. -/
def AttrOnly (p : Node → Bool) : Prop :=
  (∀ s, p (.text s) = false) ∧
  ∀ t a cs cs', p (.elem t a cs) = p (.elem t a cs')

theorem attrOnly_isArticleTag : AttrOnly isArticleTag :=
  ⟨fun _ => rfl, fun _ _ _ _ => rfl⟩

theorem attrOnly_isMwContentDiv : AttrOnly isMwContentDiv :=
  ⟨fun _ => rfl, fun _ _ _ _ => rfl⟩

theorem attrOnly_isMainRoleDiv : AttrOnly isMainRoleDiv :=
  ⟨fun _ => rfl, fun _ _ _ _ => rfl⟩

theorem attrOnly_isScriptStyle : AttrOnly isScriptStyle :=
  ⟨fun _ => rfl, fun _ _ _ _ => rfl⟩

/-- An attribute-only predicate cannot tell a node from its script-stripped
version. -/
theorem attrOnly_removeSS {p : Node → Bool} (hp : AttrOnly p) (n : Node) :
    p (removeSS n) = p n := by
  cases n with
  | text s => rfl
  | elem t a cs => exact hp.2 t a (removeSSL cs) cs

/-- Stripping scripts and styles twice is the same as stripping once. -/
theorem removeSS_idem (n : Node) : removeSS (removeSS n) = removeSS n := by
  refine @Node.rec (fun n => removeSS (removeSS n) = removeSS n)
    (fun l => removeSSL (removeSSL l) = removeSSL l) ?_ ?_ ?_ ?_ n
  · intro s; rfl
  · intro t a cs ih
    simp [removeSS, ih]
  · rfl
  · intro c cs ihc ihl
    by_cases hc : isScriptStyle c = true
    · simp [removeSSL, hc, ihl]
    · simp only [Bool.not_eq_true] at hc
      simp [removeSSL, hc, attrOnly_removeSS attrOnly_isScriptStyle, ihc, ihl]

/-- List version of `removeSS_idem`. -/
theorem removeSSL_idem (l : List Node) : removeSSL (removeSSL l) = removeSSL l := by
  induction l with
  | nil => rfl
  | cons c cs ih =>
      by_cases hc : isScriptStyle c = true
      · simp [removeSSL, hc, ih]
      · simp only [Bool.not_eq_true] at hc
        simp [removeSSL, hc, attrOnly_removeSS attrOnly_isScriptStyle,
          removeSS_idem, ih]

/-- The children of a script-stripped node are the stripped children. -/
theorem childrenOf_removeSS (n : Node) :
    (removeSS n).childrenOf = removeSSL n.childrenOf := by
  cases n <;> rfl

/-- After stripping, no script or style node can be found in a forest. -/
theorem findL_scriptStyle_removeSSL (l : List Node) :
    findL (fun n => isScriptStyle n) (removeSSL l) = none := by
  have main : ∀ n : Node, (isScriptStyle n = false →
      findN (fun n => isScriptStyle n) (removeSS n) = none) := by
    intro n
    refine @Node.rec
      (fun n => isScriptStyle n = false →
        findN (fun n => isScriptStyle n) (removeSS n) = none)
      (fun l => findL (fun n => isScriptStyle n) (removeSSL l) = none)
      ?_ ?_ ?_ ?_ n
    · intro s _; simp [removeSS, findN, isScriptStyle]
    · intro t a cs ih h
      have hroot : isScriptStyle (Node.elem t a (removeSSL cs)) = false := by
        rw [attrOnly_isScriptStyle.2 t a (removeSSL cs) cs]; exact h
      simp [removeSS, findN, hroot, ih]
    · simp [removeSSL, findL]
    · intro c cs ihc ihl
      by_cases hc : isScriptStyle c = true
      · simp [removeSSL, hc, ihl]
      · simp only [Bool.not_eq_true] at hc
        simp [removeSSL, hc, findL, ihc hc, ihl]
  induction l with
  | nil => simp [removeSSL, findL]
  | cons c cs ih =>
      by_cases hc : isScriptStyle c = true
      · simp [removeSSL, hc, ih]
      · simp only [Bool.not_eq_true] at hc
        simp [removeSSL, hc, findL, main c hc, ih]

/-- Script/style stripping cannot create a match of an attribute-only
predicate: a fruitless search stays fruitless (subtree version). -/
theorem findN_removeSS_none {p : Node → Bool} (hp : AttrOnly p) (n : Node)
    (h : findN p n = none) : findN p (removeSS n) = none := by
  refine @Node.rec
    (fun n => findN p n = none → findN p (removeSS n) = none)
    (fun l => findL p l = none → findL p (removeSSL l) = none)
    ?_ ?_ ?_ ?_ n h
  · intro s h; simpa [removeSS] using h
  · intro t a cs ih h
    rw [findN] at h
    by_cases hr : p (.elem t a cs) = true
    · simp [hr] at h
    · simp only [Bool.not_eq_true] at hr
      simp only [hr, if_neg] at h
      have hr2 : p (.elem t a (removeSSL cs)) = false := by
        rw [hp.2 t a (removeSSL cs) cs]; exact hr
      simp [removeSS, findN, hr2, ih (by simpa [hr] using h)]
  · intro _; simp [removeSSL, findL]
  · intro c cs ihc ihl h
    rw [findL] at h
    cases hc : findN p c with
    | some r => simp [hc] at h
    | none =>
        simp only [hc] at h
        by_cases hs : isScriptStyle c = true
        · simp [removeSSL, hs, ihl h]
        · simp only [Bool.not_eq_true] at hs
          simp [removeSSL, hs, findL, ihc hc, ihl h]

/-- List version of `findN_removeSS_none`. -/
theorem findL_removeSSL_none {p : Node → Bool} (hp : AttrOnly p) (l : List Node)
    (h : findL p l = none) : findL p (removeSSL l) = none := by
  induction l with
  | nil => simp [removeSSL, findL]
  | cons c cs ih =>
      rw [findL] at h
      cases hc : findN p c with
      | some r => simp [hc] at h
      | none =>
          simp only [hc] at h
          by_cases hs : isScriptStyle c = true
          · simp [removeSSL, hs, ih h]
          · simp only [Bool.not_eq_true] at hs
            simp [removeSSL, hs, findL, findN_removeSS_none hp c hc, ih h]

/-- Where nothing matches, in-place replacement does nothing (subtree
version). -/
theorem replB_of_findN_none (p : Node → Bool) (f : Node → Node) (n : Node)
    (h : findN p n = none) : replB p f n = (n, false) := by
  refine @Node.rec
    (fun n => findN p n = none → replB p f n = (n, false))
    (fun l => findL p l = none → replL p f l = (l, false))
    ?_ ?_ ?_ ?_ n h
  · intro s h
    rw [findN] at h
    by_cases hr : p (.text s) = true
    · simp [hr] at h
    · simp only [Bool.not_eq_true] at hr
      simp [replB, hr]
  · intro t a cs ih h
    rw [findN] at h
    by_cases hr : p (.elem t a cs) = true
    · simp [hr] at h
    · simp only [Bool.not_eq_true] at hr
      simp only [hr, if_neg] at h
      simp [replB, hr, ih (by simpa [hr] using h)]
  · intro _; simp [replL]
  · intro c cs ihc ihl h
    rw [findL] at h
    cases hc : findN p c with
    | some r => simp [hc] at h
    | none =>
        simp only [hc] at h
        simp [replL, ihc hc, ihl h]

/-- List version of `replB_of_findN_none`. -/
theorem replL_of_findL_none (p : Node → Bool) (f : Node → Node) (l : List Node)
    (h : findL p l = none) : replL p f l = (l, false) := by
  induction l with
  | nil => simp [replL]
  | cons c cs ih =>
      rw [findL] at h
      cases hc : findN p c with
      | some r => simp [hc] at h
      | none =>
          simp only [hc] at h
          simp [replL, replB_of_findN_none p f c hc, ih h]

/-- A node satisfying the predicate is its own first match. -/
theorem findN_self {p : Node → Bool} {m : Node} (h : p m = true) :
    findN p m = some m := by
  cases m <;> simp [findN, h]

/-- Replacing the first match of an attribute-only predicate by an image that
still matches: the replacement is found, and it is the image of the original
first match (subtree version). -/
theorem findN_replB {p : Node → Bool} (hp : AttrOnly p) (f : Node → Node)
    (hf : ∀ n, p (f n) = p n) (n : Node) :
    ∀ b, findN p n = some b →
      (replB p f n).2 = true ∧ findN p (replB p f n).1 = some (f b) := by
  refine @Node.rec
    (fun n => ∀ b, findN p n = some b →
      (replB p f n).2 = true ∧ findN p (replB p f n).1 = some (f b))
    (fun l => ∀ b, findL p l = some b →
      (replL p f l).2 = true ∧ findL p (replL p f l).1 = some (f b))
    ?_ ?_ ?_ ?_ n
  · intro s b h
    rw [findN] at h
    by_cases hr : p (.text s) = true
    · simp only [hr, if_pos] at h
      cases h
      have hfp : p (f (.text s)) = true := by rw [hf]; exact hr
      simp [replB, hr, findN_self hfp]
    · simp [hr] at h
  · intro t a cs ih b h
    rw [findN] at h
    by_cases hr : p (.elem t a cs) = true
    · simp only [hr, if_pos] at h
      cases h
      have hfp : p (f (.elem t a cs)) = true := by rw [hf]; exact hr
      simp [replB, hr, findN_self hfp]
    · simp only [Bool.not_eq_true] at hr
      simp only [hr, Bool.false_eq_true, if_false] at h
      obtain ⟨h2, h3⟩ := ih b h
      have hroot : p (.elem t a (replL p f cs).1) = false := by
        rw [hp.2 t a (replL p f cs).1 cs]; exact hr
      simp [replB, hr, findN, hroot, h2, h3]
  · intro b h; simp [findL] at h
  · intro c cs ihc ihl b h
    rw [findL] at h
    cases hc : findN p c with
    | some r =>
        simp only [hc] at h
        cases h
        obtain ⟨h2, h3⟩ := ihc b hc
        simp [replL, h2, findL, h3]
    | none =>
        simp only [hc] at h
        obtain ⟨h2, h3⟩ := ihl b h
        have hnoc := replB_of_findN_none p f c hc
        simp [replL, hnoc, h2, findL, hc, h3]

/-- List version of `findN_replB`. -/
theorem findL_replL {p : Node → Bool} (hp : AttrOnly p) (f : Node → Node)
    (hf : ∀ n, p (f n) = p n) (l : List Node) (b : Node)
    (h : findL p l = some b) :
    (replL p f l).2 = true ∧ findL p (replL p f l).1 = some (f b) := by
  induction l with
  | nil => simp [findL] at h
  | cons c cs ih =>
      rw [findL] at h
      cases hc : findN p c with
      | some r =>
          simp only [hc] at h
          cases h
          obtain ⟨h2, h3⟩ := findN_replB hp f hf c b hc
          simp [replL, h2, findL, h3]
      | none =>
          simp only [hc] at h
          obtain ⟨h2, h3⟩ := ih h
          have hnoc := replB_of_findN_none p f c hc
          simp [replL, hnoc, h2, findL, hc, h3]

/-- Replacing a first match of one predicate by its script-stripped version
cannot create a match of a different attribute-only predicate (subtree
version). -/
theorem findN_replB_none {p q : Node → Bool} (hp : AttrOnly p) (n : Node)
    (h : findN p n = none) : findN p (replB q removeSS n).1 = none := by
  refine @Node.rec
    (fun n => findN p n = none → findN p (replB q removeSS n).1 = none)
    (fun l => findL p l = none → findL p (replL q removeSS l).1 = none)
    ?_ ?_ ?_ ?_ n h
  · intro s h
    rw [findN] at h
    by_cases hr : p (.text s) = true
    · simp [hr] at h
    · simp only [Bool.not_eq_true] at hr
      by_cases hq : q (.text s) = true
      · simp [replB, hq, removeSS, findN, hr]
      · simp [replB, hq, findN, hr]
  · intro t a cs ih h
    rw [findN] at h
    by_cases hr : p (.elem t a cs) = true
    · simp [hr] at h
    · simp only [Bool.not_eq_true] at hr
      simp only [hr, Bool.false_eq_true, if_false] at h
      by_cases hq : q (.elem t a cs) = true
      · have := findN_removeSS_none hp (.elem t a cs) (by rw [findN]; simp [hr, h])
        simpa [replB, hq] using this
      · have hroot : p (.elem t a (replL q removeSS cs).1) = false := by
          rw [hp.2 t a (replL q removeSS cs).1 cs]; exact hr
        simp [replB, hq, findN, hroot, ih h]
  · intro _; simp [replL, findL]
  · intro c cs ihc ihl h
    rw [findL] at h
    cases hc : findN p c with
    | some r => simp [hc] at h
    | none =>
        simp only [hc] at h
        by_cases hrep : (replB q removeSS c).2 = true
        · simp [replL, hrep, findL, ihc hc, h]
        · simp only [Bool.not_eq_true] at hrep
          simp [replL, hrep, findL, hc, ihl h]

/-- List version of `findN_replB_none`. -/
theorem findL_replL_none {p q : Node → Bool} (hp : AttrOnly p) (l : List Node)
    (h : findL p l = none) : findL p (replL q removeSS l).1 = none := by
  induction l with
  | nil => simp [replL, findL]
  | cons c cs ih =>
      rw [findL] at h
      cases hc : findN p c with
      | some r => simp [hc] at h
      | none =>
          simp only [hc] at h
          by_cases hrep : (replB q removeSS c).2 = true
          · simp [replL, hrep, findL, findN_replB_none hp c hc, h]
          · simp only [Bool.not_eq_true] at hrep
            simp [replL, hrep, findL, hc, ih h]

/-- `find_all` lists exactly the document-order nodes satisfying the
predicate (subtree version). -/
theorem findAllN_eq_filter (p : Node → Bool) (n : Node) :
    findAllN p n = (descendN n).filter p := by
  refine @Node.rec (fun n => findAllN p n = (descendN n).filter p)
    (fun l => findAllL p l = (descendL l).filter p) ?_ ?_ ?_ ?_ n
  · intro s
    by_cases hr : p (.text s) = true <;>
      simp [findAllN, descendN, List.filter, hr]
  · intro t a cs ih
    by_cases hr : p (.elem t a cs) = true <;>
      simp [findAllN, descendN, List.filter, hr, ih]
  · rfl
  · intro c cs ihc ihl
    simp [findAllL, descendL, List.filter_append, ihc, ihl]

/-- `find_all` lists exactly the document-order nodes satisfying the
predicate (forest version). -/
theorem findAllL_eq_filter (p : Node → Bool) (l : List Node) :
    findAllL p l = (descendL l).filter p := by
  induction l with
  | nil => rfl
  | cons c cs ih =>
      simp [findAllL, descendL, List.filter_append, findAllN_eq_filter, ih]

end Node

/-- Fusing a filter into a filterMap. -/
theorem filterMap_of_filter {α β : Type} (p : α → Bool) (g : α → Option β)
    (xs : List α) :
    (xs.filter p).filterMap g =
      xs.filterMap (fun x => if p x then g x else none) := by
  induction xs with
  | nil => rfl
  | cons x xs ih =>
      by_cases hp : p x = true <;>
        simp [List.filter_cons, List.filterMap_cons, hp, ih]

/-- The source link extractor agrees with the spec wording restricted to
`<a>` elements. -/
theorem extract_links_eq_anchorHttpHrefs (d : Node) :
    extract_links d = anchorHttpHrefs d := by
  rw [extract_links, anchorHttpHrefs, soupFindAll, Node.findAllL_eq_filter,
    filterMap_of_filter]
  apply List.filterMap_congr
  intro n _
  cases n with
  | text s => rfl
  | elem t a cs =>
      by_cases ht : isTag (.elem t a cs) "a" = true
      · cases hh : getAttr (.elem t a cs) "href" with
        | some h => simp [ht, hh]
        | none => simp [ht, hh]
      · simp only [Bool.not_eq_true] at ht
        simp [ht]

open Node in
/-- The string `extract_text` returns is the cleaned text of the
script-stripped selected body. -/
theorem extractTextM_fst (d : Node) :
    (extractTextM d).1 = cleanWs (getText " " (removeSS (selectBody d))) := by
  rw [extractTextM, selectBody]
  cases h1 : soupFind isArticleTag d with
  | some b => rfl
  | none =>
      cases h2 : soupFind isMwContentDiv d with
      | some b => rfl
      | none =>
          cases h3 : soupFind isMainRoleDiv d with
          | some b => rfl
          | none => rfl

open Node in
/-- The body `extract_text` would select after its own mutation of the shared
document is the script-stripped version of the body it selected first. -/
theorem selectBody_effect (d : Node) :
    selectBody ((extractTextM d).2) = removeSS (selectBody d) := by
  rcases d with s | ⟨t, a, cs⟩
  · simp [extractTextM, selectBody, soupFind, childrenOf, findL, removeSS]
  · rw [extractTextM]
    rw [show soupFind isArticleTag (Node.elem t a cs) = findL isArticleTag cs
      from rfl]
    cases h1 : findL isArticleTag cs with
    | some b =>
        obtain ⟨hfound, hfind⟩ := findL_replL attrOnly_isArticleTag removeSS
          (attrOnly_removeSS attrOnly_isArticleTag) cs b h1
        rw [selectBody, selectBody]
        simp only [soupFind, childrenOf, replaceFirst, h1, hfind]
    | none =>
        rw [show soupFind isMwContentDiv (Node.elem t a cs) =
          findL isMwContentDiv cs from rfl]
        cases h2 : findL isMwContentDiv cs with
        | some b =>
            obtain ⟨hfound, hfind⟩ := findL_replL attrOnly_isMwContentDiv
              removeSS (attrOnly_removeSS attrOnly_isMwContentDiv) cs b h2
            have hn1 := findL_replL_none (q := isMwContentDiv)
              attrOnly_isArticleTag cs h1
            rw [selectBody, selectBody]
            simp only [soupFind, childrenOf, replaceFirst, h1, h2, hn1, hfind]
        | none =>
            rw [show soupFind isMainRoleDiv (Node.elem t a cs) =
              findL isMainRoleDiv cs from rfl]
            cases h3 : findL isMainRoleDiv cs with
            | some b =>
                obtain ⟨hfound, hfind⟩ := findL_replL attrOnly_isMainRoleDiv
                  removeSS (attrOnly_removeSS attrOnly_isMainRoleDiv) cs b h3
                have hn1 := findL_replL_none (q := isMainRoleDiv)
                  attrOnly_isArticleTag cs h1
                have hn2 := findL_replL_none (q := isMainRoleDiv)
                  attrOnly_isMwContentDiv cs h2
                rw [selectBody, selectBody]
                simp only [soupFind, childrenOf, replaceFirst, h1, h2, h3,
                  hn1, hn2, hfind]
            | none =>
                have hn1 := findL_removeSSL_none attrOnly_isArticleTag cs h1
                have hn2 := findL_removeSSL_none attrOnly_isMwContentDiv cs h2
                have hn3 := findL_removeSSL_none attrOnly_isMainRoleDiv cs h3
                rw [selectBody, selectBody]
                simp only [soupFind, childrenOf, removeSS, h1, h2, h3,
                  hn1, hn2, hn3]

/-! ## Helper lemmas: pipeline unfolding -/

/-- When the fetch fails, `scrape_article` returns no record and only the
fetch prints. -/
theorem scrape_article_fetch_fail (loads : Option String → Except PyExc PyVal)
    (parse : String → Node) (outcome : FetchOutcome) (url : String)
    (prints : List String)
    (h : fetch_html outcome url = (none, prints)) :
    scrape_article loads parse outcome url = (.ok none, prints) := by
  rw [scrape_article, h]

/-- When the fetch fails, the program prints the fetch lines and the failure
summary. -/
theorem main_run_fetch_fail (loads : Option String → Except PyExc PyVal)
    (parse : String → Node) (outcome : FetchOutcome) (argv : List String)
    (prints : List String)
    (h : fetch_html outcome ((argv.get? 1).getD DEFAULT_URL) = (none, prints)) :
    main_run loads parse outcome argv =
      (prints ++ ["Scraping failed. Check the URL and your network connection."],
       .ok ()) := by
  rw [main_run, scrape_article_fetch_fail loads parse _ _ _ h]

/-- The first character of a concatenation is the first character of a
non-empty left part. -/
theorem firstChar_append (s t : String) (c : Char) (h : firstChar s = some c) :
    firstChar (s ++ t) = some c := by
  unfold firstChar at h ⊢
  rw [show (s ++ t).toList = s.toList ++ t.toList from String.data_append s t]
  cases hl : s.toList with
  | nil => rw [hl] at h; simp at h
  | cons a rest =>
      rw [hl] at h
      simp at h
      simp [hl, h]

/-- Every JSON dump of a record starts with an opening brace. -/
theorem firstChar_dumpsRecord (r : ArticleRecord) :
    firstChar (dumpsRecord r) = some '\x7b' := by
  unfold dumpsRecord
  repeat apply firstChar_append
  rfl

/-! ## The claims -/

/-- Claim C1, counterexample: for a successful fetch of a page with one
qualifying link, the emitted record has `link_count = 1` while its `links`
field is the always-empty list, so `link_count == len(links)` fails. -/
theorem C1_counterexample :
    (scrape_article noLoads (fun _ => fixDoc1) (.response ⟨200, "h"⟩) "u").1 =
      .ok (some fixRec1) ∧
    fixRec1.link_count = 1 ∧ fixRec1.links.length = 0 ∧
    fixRec1.link_count ≠ fixRec1.links.length :=
  ⟨rfl, rfl, rfl, by decide⟩

/-- Claim C1 as amended: for every successful fetch that emits a record, the
`link_count` field equals the number of links `extract_links` finds in the
parsed page, while the record's `links` field is always the empty list (the
line populating it is commented out in the source), so `link_count`
equals `len(links)` only when the page has no qualifying links. -/
theorem C1_amended_record_link_fields
    (loads : Option String → Except PyExc PyVal) (parse : String → Node)
    (outcome : FetchOutcome) (url html : String) (prints : List String)
    (rec : ArticleRecord)
    (hfetch : fetch_html outcome url = (some html, prints))
    (hrec : (scrape_article loads parse outcome url).1 = .ok (some rec)) :
    rec.link_count = (extract_links (parse html)).length ∧ rec.links = [] := by
  rw [scrape_article, hfetch] at hrec
  cases ha : extract_author loads (parse html) with
  | error e => simp [ha, Bind.bind, Except.bind] at hrec
  | ok a =>
      cases hd : extract_publication_date loads (parse html) with
      | error e => simp [ha, hd, Bind.bind, Except.bind] at hrec
      | ok pd =>
          simp [ha, hd, Bind.bind, Except.bind, pure, Except.pure] at hrec
          subst hrec
          exact ⟨rfl, rfl⟩

/-- Witness for the amended C1 at a concrete successful run. -/
theorem C1_amended_record_link_fields_witness :
    fixRec1.link_count = (extract_links fixDoc1).length ∧ fixRec1.links = [] :=
  C1_amended_record_link_fields noLoads (fun _ => fixDoc1)
    (.response ⟨200, "h"⟩) "u" "h" [] fixRec1 rfl rfl

/-- Claim C2, counterexample: for a successful fetch of a page with non-empty
cleaned text, the record's preview field is the empty string, not the first
4000 characters of the cleaned text. -/
theorem C2_counterexample :
    (scrape_article noLoads (fun _ => fixDoc1) (.response ⟨200, "h"⟩) "u").1 =
      .ok (some fixRec1) ∧
    extract_text fixDoc1 = "x rel ftp Hello" ∧
    pyTake 4000 (extract_text fixDoc1) = "x rel ftp Hello" ∧
    fixRec1.text_preview ≠ pyTake 4000 (extract_text fixDoc1) :=
  ⟨rfl, rfl, rfl, by decide⟩

/-- Claim C2 as amended: for every successful fetch that emits a record, the
preview field is always the empty string (the line populating it is commented
out in the source), the length field is the full length of the cleaned
visible text, and consequently the two length inequalities of the claim hold
trivially. -/
theorem C2_amended_record_text_fields
    (loads : Option String → Except PyExc PyVal) (parse : String → Node)
    (outcome : FetchOutcome) (url html : String) (prints : List String)
    (rec : ArticleRecord)
    (hfetch : fetch_html outcome url = (some html, prints))
    (hrec : (scrape_article loads parse outcome url).1 = .ok (some rec)) :
    rec.text_preview = "" ∧
    rec.text_length = (extract_text (parse html)).length ∧
    rec.text_preview.length ≤ 4000 ∧
    rec.text_preview.length ≤ rec.text_length := by
  rw [scrape_article, hfetch] at hrec
  cases ha : extract_author loads (parse html) with
  | error e => simp [ha, Bind.bind, Except.bind] at hrec
  | ok a =>
      cases hd : extract_publication_date loads (parse html) with
      | error e => simp [ha, hd, Bind.bind, Except.bind] at hrec
      | ok pd =>
          simp [ha, hd, Bind.bind, Except.bind, pure, Except.pure] at hrec
          subst hrec
          refine ⟨rfl, rfl, by simp, by simp⟩

/-- Witness for the amended C2 at a concrete successful run. -/
theorem C2_amended_record_text_fields_witness :
    fixRec1.text_preview = "" ∧
    fixRec1.text_length = (extract_text fixDoc1).length ∧
    fixRec1.text_preview.length ≤ 4000 ∧
    fixRec1.text_preview.length ≤ fixRec1.text_length :=
  C2_amended_record_text_fields noLoads (fun _ => fixDoc1)
    (.response ⟨200, "h"⟩) "u" "h" [] fixRec1 rfl rfl

/-- Claim C3, counterexample: a script inside the `<article>` root is present
before `extract_text` runs and gone from the shared document afterwards — the
removal does not happen on a scoped copy. -/
theorem C3_counterexample :
    Node.soupFind (fun n => isTag n "script") fixDoc3 = some fixScript ∧
    Node.soupFind (fun n => isTag n "script") ((extractTextM fixDoc3).2) =
      none ∧
    (extractTextM fixDoc3).2 ≠ fixDoc3 :=
  ⟨rfl, rfl, by decide⟩

/-- Claim C3 as amended: `extract_text` removes script and style elements in
place on the shared document: after it runs, the body it selected has become
its script-stripped version, and no script or style element can be found
under that root any more (so other extractors run afterwards no longer see
them). -/
theorem C3_amended_inplace_script_removal (d : Node) :
    selectBody ((extractTextM d).2) = Node.removeSS (selectBody d) ∧
    Node.soupFind (fun n => Node.isScriptStyle n)
      (selectBody ((extractTextM d).2)) = none := by
  refine ⟨selectBody_effect d, ?_⟩
  rw [selectBody_effect d]
  show Node.findL _ (Node.childrenOf (Node.removeSS (selectBody d))) = none
  rw [Node.childrenOf_removeSS]
  exact Node.findL_scriptStyle_removeSSL _

/-- Claim C4 (code bug): a `<script type="application/ld+json">` block whose
content decodes to the empty list makes `data = data[0]` raise an uncaught
`IndexError` inside `extract_json_ld`, which aborts the author and date
extractors and the whole scrape, instead of being silently skipped. -/
theorem C4_code_bug_empty_ld_list_raises :
    extract_json_ld loads4 fixDoc4 = .error .indexError ∧
    extract_author loads4 fixDoc4 = .error .indexError ∧
    extract_publication_date loads4 fixDoc4 = .error .indexError ∧
    (scrape_article loads4 (fun _ => fixDoc4) (.response ⟨200, "h"⟩) "u").1 =
      .error .indexError :=
  ⟨rfl, rfl, rfl, rfl⟩

/-- Claim C5, counterexample: on a fetch failure the program's standard
output is two lines (the fetch error line printed inside `fetch_html` and the
failure summary printed by the main block), not a single line. -/
theorem C5_counterexample :
    (main_run noLoads (fun _ => fixDoc1) (.transportError "timed out")
      ["extractor_basic.py", "http://x"]).1 =
      ["Error fetching URL: timed out",
       "Scraping failed. Check the URL and your network connection."] ∧
    (main_run noLoads (fun _ => fixDoc1) (.transportError "timed out")
      ["extractor_basic.py", "http://x"]).1.length ≠ 1 :=
  ⟨rfl, by decide⟩

/-- Claim C5 as amended: when the fetch fails (transport error or 4xx/5xx
status) the program produces no record, and its standard output is exactly
two human-readable lines — the fetch error line and the failure summary —
with no JSON dump among them. -/
theorem C5_amended_failure_output
    (loads : Option String → Except PyExc PyVal) (parse : String → Node)
    (outcome : FetchOutcome) (argv : List String)
    (h : (fetch_html outcome ((argv.get? 1).getD DEFAULT_URL)).1 = none) :
    (main_run loads parse outcome argv).1 =
      (fetch_html outcome ((argv.get? 1).getD DEFAULT_URL)).2 ++
        ["Scraping failed. Check the URL and your network connection."] ∧
    (main_run loads parse outcome argv).1.length = 2 ∧
    (scrape_article loads parse outcome ((argv.get? 1).getD DEFAULT_URL)).1 =
      .ok none ∧
    ∀ r : ArticleRecord,
      dumpsRecord r ∉ (main_run loads parse outcome argv).1 := by
  have hfe : ∀ line, fetch_html outcome ((argv.get? 1).getD DEFAULT_URL) =
      (none, [line]) → firstChar line = some 'E' →
      (main_run loads parse outcome argv).1 =
        (fetch_html outcome ((argv.get? 1).getD DEFAULT_URL)).2 ++
          ["Scraping failed. Check the URL and your network connection."] ∧
      (main_run loads parse outcome argv).1.length = 2 ∧
      (scrape_article loads parse outcome
        ((argv.get? 1).getD DEFAULT_URL)).1 = .ok none ∧
      ∀ r : ArticleRecord,
        dumpsRecord r ∉ (main_run loads parse outcome argv).1 := by
    intro line hline hE
    rw [main_run_fetch_fail loads parse outcome argv [line] hline, hline,
      scrape_article_fetch_fail loads parse _ _ _ hline]
    refine ⟨rfl, rfl, rfl, ?_⟩
    intro r hmem
    simp only [List.cons_append, List.nil_append, List.mem_cons,
      List.not_mem_nil, or_false] at hmem
    rcases hmem with heq | heq
    · have hc := congrArg firstChar heq
      rw [firstChar_dumpsRecord, hE] at hc
      simp at hc
    · have hc := congrArg firstChar heq
      rw [firstChar_dumpsRecord] at hc
      simp [firstChar] at hc
  rcases outcome with msg | resp
  · exact hfe _ rfl (firstChar_append _ _ 'E' rfl)
  · by_cases hs : statusIsError resp.status = true
    · have hline : fetch_html (.response resp)
          ((argv.get? 1).getD DEFAULT_URL) =
          (none, ["Error fetching URL: " ++ toString resp.status ++
            " Error for url: " ++ ((argv.get? 1).getD DEFAULT_URL)]) := by
        simp [fetch_html, hs]
      refine hfe _ hline ?_
      rw [show ("Error fetching URL: " ++ toString resp.status ++
        " Error for url: " ++ ((argv.get? 1).getD DEFAULT_URL)) =
        "Error fetching URL: " ++ (toString resp.status ++
        (" Error for url: " ++ ((argv.get? 1).getD DEFAULT_URL))) by
          simp [String.append_assoc]]
      exact firstChar_append _ _ 'E' rfl
    · exfalso
      simp [fetch_html, hs] at h

/-- Witness for the amended C5 at a concrete failing fetch. -/
theorem C5_amended_failure_output_witness :
    (main_run noLoads (fun _ => fixDoc1) (.transportError "timed out")
      ["extractor_basic.py", "http://x"]).1 =
      (fetch_html (.transportError "timed out")
        (((["extractor_basic.py", "http://x"] : List String).get? 1).getD
          DEFAULT_URL)).2 ++
        ["Scraping failed. Check the URL and your network connection."] ∧
    (main_run noLoads (fun _ => fixDoc1) (.transportError "timed out")
      ["extractor_basic.py", "http://x"]).1.length = 2 ∧
    (scrape_article noLoads (fun _ => fixDoc1) (.transportError "timed out")
      (((["extractor_basic.py", "http://x"] : List String).get? 1).getD
        DEFAULT_URL)).1 = .ok none ∧
    ∀ r : ArticleRecord,
      dumpsRecord r ∉ (main_run noLoads (fun _ => fixDoc1)
        (.transportError "timed out") ["extractor_basic.py", "http://x"]).1 :=
  C5_amended_failure_output noLoads (fun _ => fixDoc1)
    (.transportError "timed out") ["extractor_basic.py", "http://x"] rfl

/-- Claim C6, counterexample: a page whose only `http`-prefixed href sits on
a `<link>` element: the claim's reading (all elements with an href) would
return it, `extract_links` (which only visits `<a>` tags) does not. -/
theorem C6_counterexample :
    extract_links fixDoc6 = [] ∧ allHttpHrefs fixDoc6 = ["http://a"] ∧
    extract_links fixDoc6 ≠ allHttpHrefs fixDoc6 :=
  ⟨rfl, rfl, by decide⟩

/-- Claim C6 as amended: `extract_links` returns, in document order and
without deduplication, exactly the href values of all `<a>` elements carrying
an `href` attribute whose value starts with `"http"`; on the spec's
three-anchor example it returns exactly the one absolute link. -/
theorem C6_amended_anchor_links :
    (∀ d, extract_links d = anchorHttpHrefs d) ∧
    extract_links fixDoc6b = ["https://example.com/x"] :=
  ⟨extract_links_eq_anchorHttpHrefs, rfl⟩

/-- Claim C7: the author extractor's ordered fallback chain.  Tier 1
(structured data) takes priority: a JSON-LD article author object
`("name": "Jane Doe")` yields exactly `"Jane Doe"` for any document (meta
tags present or not); a two-object author list yields `"A, B"`; and when the
structured-data tier produces nothing, the first meta-tag candidate (scanned
in the fixed order `article:author`, `author`, `byl`, `DC.creator`) with a
non-empty `content` wins, trimmed. -/
theorem C7_author_structured_priority :
    (∀ (loads : Option String → Except PyExc PyVal) (d : Node)
        (fs : List (String × PyVal)),
      extract_json_ld loads d = .ok (some (.dict fs)) →
      dictGet fs "author" = some (.dict [("name", .str "Jane Doe")]) →
      extract_author loads d = .ok "Jane Doe") ∧
    (∀ (loads : Option String → Except PyExc PyVal) (d : Node)
        (fs : List (String × PyVal)),
      extract_json_ld loads d = .ok (some (.dict fs)) →
      dictGet fs "author" =
        some (.list [.dict [("name", .str "A")], .dict [("name", .str "B")]]) →
      extract_author loads d = .ok "A, B") ∧
    (∀ (loads : Option String → Except PyExc PyVal) (d : Node)
        (ldo : Option PyVal),
      extract_json_ld loads d = .ok ldo →
      authorFromLd ldo = .ok none →
      ∀ c, metaFirst d authorMetaCandidates = some c →
      extract_author loads d = .ok (pyStrip c)) := by
  refine ⟨?_, ?_, ?_⟩
  · intro loads d fs h1 h2
    have hfs : fs.isEmpty = false := by
      cases fs with
      | nil => simp [dictGet] at h2
      | cons p ps => rfl
    have ht : pyTruthy (PyVal.dict fs) = true := by simp [pyTruthy, hfs]
    have htr : pyTruthy (PyVal.dict [("name", PyVal.str "Jane Doe")]) = true :=
      rfl
    have h3 : dictGet [("name", PyVal.str "Jane Doe")] "name" =
        some (.str "Jane Doe") := rfl
    have hAuthor : authorFromLd (some (.dict fs)) = .ok (some "Jane Doe") := by
      simp [authorFromLd, ht, h2, htr, h3, pyStr]
    simp [extract_author, h1, hAuthor, Bind.bind, Except.bind, pure,
      Except.pure]
  · intro loads d fs h1 h2
    have hfs : fs.isEmpty = false := by
      cases fs with
      | nil => simp [dictGet] at h2
      | cons p ps => rfl
    have ht : pyTruthy (PyVal.dict fs) = true := by simp [pyTruthy, hfs]
    have htl : pyTruthy (PyVal.list [PyVal.dict [("name", PyVal.str "A")],
        PyVal.dict [("name", PyVal.str "B")]]) = true := rfl
    have hmap : List.map authorEntryName
        [PyVal.dict [("name", PyVal.str "A")],
         PyVal.dict [("name", PyVal.str "B")]] =
        [PyVal.str "A", PyVal.str "B"] := rfl
    have hfilt : List.filter pyTruthy [PyVal.str "A", PyVal.str "B"] =
        [PyVal.str "A", PyVal.str "B"] := rfl
    have hjoin : pyJoin ", " [PyVal.str "A", PyVal.str "B"] = .ok "A, B" := rfl
    have hAuthor : authorFromLd (some (.dict fs)) = .ok (some "A, B") := by
      simp [authorFromLd, ht, h2, htl, hmap, hfilt, hjoin, Except.map]
    simp [extract_author, h1, hAuthor, Bind.bind, Except.bind, pure,
      Except.pure]
  · intro loads d ldo h1 h2 c h3
    simp [extract_author, h1, h2, h3, Bind.bind, Except.bind, pure,
      Except.pure]

/-- Witness for C7 at concrete documents: the Jane Doe object (with a
conflicting meta author present), the two-author list, and the meta-tag
fallthrough. -/
theorem C7_author_structured_priority_witness :
    extract_author loadsJane fixDoc7 = .ok "Jane Doe" ∧
    extract_author loadsAB fixDoc7 = .ok "A, B" ∧
    extract_author noLoads fixDoc7 = .ok (pyStrip "Meta Person") :=
  ⟨C7_author_structured_priority.1 loadsJane fixDoc7 ldJaneFields rfl rfl,
   C7_author_structured_priority.2.1 loadsAB fixDoc7 ldABFields rfl rfl,
   C7_author_structured_priority.2.2 noLoads fixDoc7 none rfl rfl
     "Meta Person" rfl⟩

/-- Claim C8: when the structured-data author is a non-empty list whose
entries all map to empty strings (dict entries to their `name` with default
`""`, other entries to themselves), the empty-name filter leaves nothing, the
join returns `""`, and `extract_author` reports `""` as the tier-1 result
without falling through to the meta-tag or class heuristics. -/
theorem C8_author_empty_join
    (loads : Option String → Except PyExc PyVal) (d : Node)
    (fs : List (String × PyVal)) (xs : List PyVal)
    (h1 : extract_json_ld loads d = .ok (some (.dict fs)))
    (h2 : dictGet fs "author" = some (.list xs))
    (h3 : xs ≠ [])
    (h4 : ∀ x ∈ xs, authorEntryName x = .str "") :
    extract_author loads d = .ok "" := by
  have hfs : fs.isEmpty = false := by
    cases fs with
    | nil => simp [dictGet] at h2
    | cons p ps => rfl
  have hxs : xs.isEmpty = false := by
    cases xs with
    | nil => exact absurd rfl h3
    | cons a b => rfl
  have ht : pyTruthy (PyVal.dict fs) = true := by simp [pyTruthy, hfs]
  have htl : pyTruthy (PyVal.list xs) = true := by simp [pyTruthy, hxs]
  have hfilter : (xs.map authorEntryName).filter pyTruthy = [] := by
    rw [List.filter_eq_nil_iff]
    intro v hv
    obtain ⟨x, hx, hmap⟩ := List.mem_map.mp hv
    rw [← hmap, h4 x hx]
    simp [pyTruthy]
  have hj : pyJoin ", " [] = .ok "" := rfl
  have hAuthor : authorFromLd (some (.dict fs)) = .ok (some "") := by
    simp [authorFromLd, ht, h2, htl, hfilter, hj, Except.map]
  simp [extract_author, h1, hAuthor, Bind.bind, Except.bind, pure,
    Except.pure]

/-- Witness for C8: a page whose author list is an empty string and a
name-less dict, next to a meta author the fallthrough would have found. -/
theorem C8_author_empty_join_witness :
    extract_author loadsEmpties fixDoc8 = .ok "" ∧
    metaFirst fixDoc8 authorMetaCandidates = some "Someone" :=
  ⟨C8_author_empty_join loadsEmpties fixDoc8 ldEmptyFields ldEmptyAuthors
      rfl rfl (by simp [ldEmptyAuthors])
      (by intro x hx
          simp only [ldEmptyAuthors, List.mem_cons, List.not_mem_nil,
            or_false, List.mem_singleton] at hx
          rcases hx with rfl | rfl <;> rfl),
   rfl⟩

/-- Claim C9: `extract_title` returns the trimmed `.string` of the first
`<title>` element when that string exists and is non-empty, and the sentinel
exactly in the remaining cases (no `<title>` element, or its `.string`
absent or empty). -/
theorem C9_title_sentinel (d : Node) :
    (Node.soupFind (fun n => isTag n "title") d = none →
      extract_title d = "(no title found)") ∧
    (∀ tt, Node.soupFind (fun n => isTag n "title") d = some tt →
      (Node.nodeString tt = none ∨ Node.nodeString tt = some "") →
      extract_title d = "(no title found)") ∧
    (∀ tt s, Node.soupFind (fun n => isTag n "title") d = some tt →
      Node.nodeString tt = some s → s ≠ "" →
      extract_title d = pyStrip s) := by
  refine ⟨?_, ?_, ?_⟩
  · intro h; simp [extract_title, h]
  · intro tt h hns
    rcases hns with hn | hn <;> simp [extract_title, h, hn]
  · intro tt s h hn hs
    simp [extract_title, h, hn, hs]

/-- Witness for C9: a page with no title and a page with a padded title. -/
theorem C9_title_sentinel_witness :
    extract_title fixDoc1 = "(no title found)" ∧
    extract_title fixDoc9 = pyStrip "  The Title " :=
  ⟨(C9_title_sentinel fixDoc1).1 rfl,
   (C9_title_sentinel fixDoc9).2.2 fixTitleTag "  The Title " rfl rfl
     (by decide)⟩

/-- Claim C10: `extract_text` is idempotent on the shared document — the
second call `scrape_article` makes (after the first call has destructively
stripped scripts and styles from the selected body) returns the same
string. -/
theorem C10_extract_text_idempotent (d : Node) :
    extract_text ((extractTextM d).2) = extract_text d := by
  rw [extract_text, extract_text, extractTextM_fst, extractTextM_fst,
    selectBody_effect, Node.removeSS_idem]
